import Mathlib

/-!
Verification development for the `sol-historical-price` repository
(`src/binance_sol_price_fetch.py`).

The script is a sequential pipeline:
`get_all_solana_data` tries `try_download_resolution "1s"`, falls back to
`try_download_resolution "1m"`, and on a successful download runs
`process_downloaded_data` on the downloaded directory tree: it selects a
directory, collects the `.csv` files below it, loads them in lexicographic
path order, concatenates them, converts the two time columns from
millisecond epoch integers to timestamps, sorts by `Open time`, drops
duplicate open times keeping the first occurrence, coerces the five price
columns to numeric, and writes a single output CSV.

The Python code is embedded shallowly:

* a CSV cell is a `Cell` (a numeric value, a missing value, or a raw
  string, matching what `pandas.read_csv` can produce for one cell);
* a file row is a `Row` over the Binance kline schema the script uses
  (`Open time`, `Open`, `High`, `Low`, `Close`, `Volume`, `Close time`);
* the filesystem is a list of directory entries in `os.walk` order;
* calls into external libraries (`pandas`, `numpy`,
  `binance_historical_data`) are modelled by executable functions that
  follow those libraries' documented behaviour, noted at each definition;
* Python exceptions are modelled with `Except`; the value `none` stands
  for Python `None`.
-/

/-! ## CSV cells and numeric coercion -/

/-- A single CSV cell as produced by `pandas.read_csv`: a parsed numeric
value, a missing value (`NaN`), or a raw string. -/
inductive Cell where
  | num (q : ℚ)
  | nan
  | str (s : String)
deriving DecidableEq, Repr, Inhabited

/-- Numeric value of a decimal digit, `none` for non-digits. -/
def digitVal (c : Char) : Option Nat :=
  if c.isDigit then some (c.toNat - 48) else none

/-- Parse a non-empty all-digit character list into a natural number. -/
def parseDigits : List Char → Option Nat
  | [] => none
  | cs => cs.foldlM (fun acc c => (digitVal c).map (fun d => acc * 10 + d)) 0

/-- Parse an unsigned decimal mantissa (`12`, `12.5`, `12.`, `.5`) into a
numerator/denominator pair. -/
def parseMantissa (cs : List Char) : Option (Int × Nat) :=
  let intPart := cs.takeWhile (fun c => c ≠ '.')
  let rest := cs.dropWhile (fun c => c ≠ '.')
  match rest with
  | [] => (parseDigits intPart).map (fun n => ((n : Int), 1))
  | _ :: frac =>
    if intPart.isEmpty ∧ frac.isEmpty then none
    else do
      let ip ← if intPart.isEmpty then pure 0 else parseDigits intPart
      let fp ← if frac.isEmpty then pure 0 else parseDigits frac
      pure (((ip * 10 ^ frac.length + fp : Nat) : Int), 10 ^ frac.length)

/-- Parse an optionally signed decimal mantissa. -/
def parseSignedMantissa : List Char → Option (Int × Nat)
  | '-' :: cs => (parseMantissa cs).map (fun p => (-p.1, p.2))
  | '+' :: cs => parseMantissa cs
  | cs => parseMantissa cs

/-- Parse an optionally signed exponent part. -/
def parseExpPart : List Char → Option Int
  | '-' :: ds => (parseDigits ds).map (fun n => -(n : Int))
  | '+' :: ds => (parseDigits ds).map (fun n => (n : Int))
  | ds => (parseDigits ds).map (fun n => (n : Int))

/-- Strip leading and trailing whitespace (Python's surrounding-space
tolerance when parsing numbers). -/
def trimWs (cs : List Char) : List Char :=
  ((cs.dropWhile Char.isWhitespace).reverse.dropWhile Char.isWhitespace).reverse

/-- Modelled library behaviour: the numeric-string parsing used by
`pandas.to_numeric` / `pandas.to_datetime` on object columns — an
optionally signed decimal with optional fraction and optional
`e`-exponent, surrounded by optional whitespace.  Returns `none` for
strings that do not parse as a number. -/
def parseRat (s : String) : Option ℚ :=
  let cs := trimWs s.data
  let mant := cs.takeWhile (fun c => c ≠ 'e' ∧ c ≠ 'E')
  let rest := cs.dropWhile (fun c => c ≠ 'e' ∧ c ≠ 'E')
  match rest with
  | [] => (parseSignedMantissa mant).map (fun p => mkRat p.1 p.2)
  | _ :: ex => do
    let p ← parseSignedMantissa mant
    let e ← parseExpPart ex
    pure (mkRat (p.1 * (10 ^ e.toNat : Nat)) (p.2 * (10 ^ (-e).toNat : Nat)))

/-- Modelled library behaviour: `pandas.to_numeric(col, errors='coerce')`
applied to one cell — numeric cells and missing values pass through,
strings are parsed, and unparseable strings become the missing marker
`NaN` (the run is never aborted). -/
def toNumericCell : Cell → Cell
  | .num q => .num q
  | .nan => .nan
  | .str s =>
    match parseRat s with
    | some q => .num q
    | none => .nan

/-! ## Calendar conversion (`pandas.to_datetime(..., unit='ms')`) -/

/-- A calendar timestamp (UTC), the rendering of a pandas `Timestamp`. -/
structure Civil where
  year : Int
  month : Int
  day : Int
  hour : Int
  minute : Int
  second : Int
  millis : Int
deriving DecidableEq, Repr

/-- Proleptic Gregorian civil date from a count of days since 1970-01-01
(the standard era-based algorithm, which is what datetime libraries
compute). -/
def civilFromDays (z0 : Int) : Int × Int × Int :=
  let z := z0 + 719468
  let era := z.ediv 146097
  let doe := z.emod 146097
  let yoe := (doe - doe.ediv 1460 + doe.ediv 36524 - doe.ediv 146096).ediv 365
  let y := yoe + era * 400
  let doy := doe - (365 * yoe + yoe.ediv 4 - yoe.ediv 100)
  let mp := (5 * doy + 2).ediv 153
  let d := doy - (153 * mp + 2).ediv 5 + 1
  let m := if mp < 10 then mp + 3 else mp - 9
  (if m ≤ 2 then y + 1 else y, m, d)

/-- Inverse direction, used to state calendar correctness: days since
1970-01-01 of a Gregorian civil date (era-based algorithm). -/
def daysFromCivil (y0 m d : Int) : Int :=
  let y := if m ≤ 2 then y0 - 1 else y0
  let era := y.ediv 400
  let yoe := y - era * 400
  let mp := if m > 2 then m - 3 else m + 9
  let doy := (153 * mp + 2).ediv 5 + d - 1
  let doe := yoe * 365 + yoe.ediv 4 - yoe.ediv 100 + doy
  era * 146097 + doe - 719468

/-- Modelled library behaviour: `pandas.to_datetime(x, unit='ms')` for an
integer epoch-millisecond value, rendered as a calendar timestamp. -/
def calendarOfMs (ms : Int) : Civil :=
  let days := ms.ediv 86400000
  let rem := ms.emod 86400000
  let c := civilFromDays days
  { year := c.1, month := c.2.1, day := c.2.2
    hour := rem.ediv 3600000
    minute := (rem.ediv 60000).emod 60
    second := (rem.ediv 1000).emod 60
    millis := rem.emod 1000 }

/-! ## Rows of the kline schema -/

/-- One record of a downloaded kline CSV, with the columns the script
touches; every cell is kept as read from disk. -/
structure Row where
  openTime : Cell
  closeTime : Cell
  openP : Cell
  highP : Cell
  lowP : Cell
  closeP : Cell
  volume : Cell
deriving DecidableEq, Repr, Inhabited

/-- A record after the two `pd.to_datetime(..., unit='ms')` column
conversions: the time columns hold epoch-millisecond integers (a pandas
`Timestamp` is internally an epoch integer; `none` models `NaT`), the
other columns are unchanged cells. -/
structure ProcRow where
  openTime : Option Int
  closeTime : Option Int
  openP : Cell
  highP : Cell
  lowP : Cell
  closeP : Cell
  volume : Cell
deriving DecidableEq, Repr, Inhabited

/-- Modelled library behaviour: `pandas.to_datetime(cell, unit='ms')` on
one cell.  Numeric cells convert to their (floored) millisecond value,
`NaN` becomes `NaT`, numeric strings are parsed, and a non-numeric string
raises (`ValueError: non convertible value ... with the unit 'ms'`). -/
def toDatetimeCell : Cell → Except String (Option Int)
  | .num q => .ok (some ⌊q⌋)
  | .nan => .ok none
  | .str s =>
    match parseRat s with
    | some q => .ok (some ⌊q⌋)
    | none => .error "non convertible value with the unit ms"

/-- The two column conversions of lines 176-177, per row.  (The script
converts the whole `Open time` column and then the whole `Close time`
column; applied row-wise this succeeds or raises under exactly the same
conditions.) -/
def toDatetimeRow (r : Row) : Except String ProcRow := do
  let ot ← toDatetimeCell r.openTime
  let ct ← toDatetimeCell r.closeTime
  pure { openTime := ot, closeTime := ct, openP := r.openP, highP := r.highP
         lowP := r.lowP, closeP := r.closeP, volume := r.volume }

/-- Lines 184-186: coerce the five price columns to numeric with
`errors='coerce'`; the time columns are untouched. -/
def toNumericRow (r : ProcRow) : ProcRow :=
  { r with openP := toNumericCell r.openP, highP := toNumericCell r.highP
           lowP := toNumericCell r.lowP, closeP := toNumericCell r.closeP
           volume := toNumericCell r.volume }

/-! ## Sorting by `Open time` -/

/-- Order on sort keys used by `sort_values('Open time')`: ordinary order
on timestamps, with `NaT` placed last (`na_position='last'`, the pandas
default). -/
def keyLeB : Option Int → Option Int → Bool
  | some x, some y => x ≤ y
  | some _, none => true
  | none, some _ => false
  | none, none => true

/-- Strict version of `keyLeB`. -/
def keyLtB (a b : Option Int) : Bool := keyLeB a b && !(a == b)

/-- Row comparison by the `Open time` key. -/
def rowLe (a b : ProcRow) : Prop := keyLeB a.openTime b.openTime = true

instance : DecidableRel rowLe := fun a b => by
  unfold rowLe; infer_instance

instance : IsTotal ProcRow rowLe := by
  constructor
  intro a b
  unfold rowLe keyLeB
  rcases a.openTime with _ | x <;> rcases b.openTime with _ | y <;> simp
  omega

instance : IsTrans ProcRow rowLe := by
  constructor
  intro a b c
  unfold rowLe keyLeB
  rcases a.openTime with _ | x <;> rcases b.openTime with _ | y <;>
    rcases c.openTime with _ | z <;> simp
  omega

/-- The contract pandas documents for `DataFrame.sort_values('Open time')`
(line 180): the result is a permutation of the rows, ordered by the key
column with missing keys last.  The pandas documentation does not promise
a stable order among equal keys for the default `kind='quicksort'`. -/
def SortSpec (f : List ProcRow → List ProcRow) : Prop :=
  ∀ l, (f l).Perm l ∧ (f l).Sorted rowLe

/-- A sort is stable for the key when filtering to any single key value
returns the rows in their original relative order. -/
def StableSort (f : List ProcRow → List ProcRow) : Prop :=
  ∀ l k, (f l).filter (fun r => decide (r.openTime = k)) =
    l.filter (fun r => decide (r.openTime = k))

/-- A stable reference sort satisfying the pandas contract (used to
instantiate theorems whose hypotheses are the contract). -/
def stableSortRows (l : List ProcRow) : List ProcRow := l.insertionSort rowLe

/-- Line 181, `drop_duplicates(subset=['Open time'], keep='first')`:
pandas scans the rows keeping the first row of each not-yet-seen key
(`NaN`/`NaT` keys compare equal to each other for this purpose). -/
def dropDuplicatesGo (seen : List (Option Int)) : List ProcRow → List ProcRow
  | [] => []
  | r :: rs =>
    if r.openTime ∈ seen then dropDuplicatesGo seen rs
    else r :: dropDuplicatesGo (r.openTime :: seen) rs

/-- Line 181 applied to the sorted concatenation. -/
def dropDuplicatesByOpenTime (l : List ProcRow) : List ProcRow :=
  dropDuplicatesGo [] l

/-! ## Filesystem model and the file locator -/

/-- A filesystem path, as a plain string (the script works with joined
path strings throughout). -/
abbrev FsPath := String

/-- Contents of one CSV file; `none` models a file on which
`pandas.read_csv` raises (line 158's per-file failure). -/
abbrev FileData := Option (List Row)

/-- One directory of the downloaded tree: its full path and the plain
files inside it. -/
structure DirEntry where
  path : FsPath
  files : List (String × FileData)
deriving Inhabited

/-- The filesystem: the directories that exist, listed in the top-down
order in which `os.walk` enumerates them from the working directory. -/
abbrev FS := List DirEntry

/-- Boolean list-prefix test (used for path containment). -/
def listLeads : List Char → List Char → Bool
  | [], _ => true
  | _ :: _, [] => false
  | a :: as, b :: bs => a == b && listLeads as bs

/-- `strLeads p s` holds when string `p` starts string `s`. -/
def strLeads (p s : String) : Bool := listLeads p.data s.data

/-- `strEnds p s` holds when string `p` ends string `s`
(`str.endswith` in Python, used for the `.csv` test of lines 130/143). -/
def strEnds (p s : String) : Bool := listLeads p.data.reverse s.data.reverse

/-- Path `p` is the directory `d` itself or lies strictly below it. -/
def underDir (d p : FsPath) : Bool := p == d || strLeads (d ++ "/") p

/-- `os.path.exists` on a directory path. -/
def pathExists (fs : FS) (p : FsPath) : Bool := fs.any (fun e => e.path == p)

/-- `os.walk root`: the directory entries at or below `root`, in the
filesystem's traversal order. -/
def walkFrom (fs : FS) (root : FsPath) : List DirEntry :=
  fs.filter (fun e => underDir root e.path)

/-- Line 63 / line 118: the per-resolution download directory. -/
def dataDir (frequency : String) : FsPath := "./solana_data_" ++ frequency

/-- Line 123: the daily-klines subdirectory the package creates. -/
def dailyDir (frequency : String) : FsPath :=
  dataDir frequency ++ "/spot/daily/klines/SOLUSDT/" ++ frequency

/-- Line 125: the monthly-klines subdirectory. -/
def monthlyDir (frequency : String) : FsPath :=
  dataDir frequency ++ "/spot/monthly/klines/SOLUSDT/" ++ frequency

/-- Lines 196-197: the output file name for a resolution. -/
def outputFile (frequency : String) : FsPath :=
  "solana_complete_" ++ frequency ++ "_data.csv"

/-- Lines 128-133: scan `data_dir` with `os.walk` and take the first
directory that directly contains a `.csv` file. -/
def findCsvDir (fs : FS) (dd : FsPath) : Option FsPath :=
  ((walkFrom fs dd).find? (fun e => e.files.any (fun f => strEnds ".csv" f.1))).map
    (fun e => e.path)

/-- Lines 121-135: choose `actual_dir`.  `locRaises` models the `except`
on line 134: an exception anywhere in the `try` block leaves
`actual_dir = data_dir`. -/
def selectDir (fs : FS) (locRaises : Bool) (frequency : String) : FsPath :=
  if locRaises then dataDir frequency
  else if pathExists fs (dailyDir frequency) then dailyDir frequency
  else if pathExists fs (monthlyDir frequency) then monthlyDir frequency
  else
    match findCsvDir fs (dataDir frequency) with
    | some p => p
    | none => monthlyDir frequency

/-- Lines 139-144: recursively collect the paths of all `.csv` files
under `actual_dir` (`os.path.join(root, file)` joins with `/`). -/
def collectCsv (fs : FS) (dir : FsPath) : List FsPath :=
  (walkFrom fs dir).flatMap
    (fun e => (e.files.filter (fun f => strEnds ".csv" f.1)).map
      (fun f => e.path ++ "/" ++ f.1))

/-- Look a file up by its joined path. -/
def fileAt (fs : FS) (p : FsPath) : Option FileData :=
  fs.findSome? (fun e =>
    e.files.findSome? (fun f => if e.path ++ "/" ++ f.1 == p then some f.2 else none))

/-- Lexicographic order on character lists by code point (how Python
compares strings). -/
def lexLeB : List Char → List Char → Bool
  | [], _ => true
  | _ :: _, [] => false
  | a :: as, b :: bs => if a = b then lexLeB as bs else decide (a < b)

/-- Lexicographic order on path strings. -/
def pathLe (a b : FsPath) : Prop := lexLeB a.data b.data = true

instance : DecidableRel pathLe := fun a b => by
  unfold pathLe; infer_instance

/-- Line 156, `sorted(csv_files)`: Python sorts the path strings
lexicographically by code point. -/
def sortPaths (ps : List FsPath) : List FsPath :=
  ps.insertionSort pathLe

/-- Lines 156-164: load each file in sorted path order; a file whose load
raises is skipped (reported and ignored), the rest are kept in order. -/
def loadAll (fs : FS) (ps : List FsPath) : List (FsPath × List Row) :=
  ps.filterMap (fun p =>
    match fileAt fs p with
    | some (some rows) => some (p, rows)
    | _ => none)

/-! ## The merge step (`process_downloaded_data`) -/

/-- Observable outcome of `process_downloaded_data`: the returned value
(`none` models Python `None`) and the files it wrote. -/
structure ProcOut where
  result : Option (List ProcRow)
  written : List (FsPath × List ProcRow)
deriving Repr

/-- Lines 108-204, `process_downloaded_data(frequency)`.  The function is
parametric in `sortImpl`, the realisation of
`sort_values('Open time')` (line 180); pandas' default is numpy's
unstable quicksort, and theorems state which properties of the sort they
rely on.  A raised Python exception is `Except.error`. -/
def process_downloaded_data (fs : FS) (locRaises : Bool)
    (sortImpl : List ProcRow → List ProcRow) (frequency : String) :
    Except String ProcOut :=
  let actual_dir := selectDir fs locRaises frequency
  let csv_files := collectCsv fs actual_dir
  if csv_files.isEmpty then .ok ⟨none, []⟩
  else
    let dataframes := loadAll fs (sortPaths csv_files)
    if dataframes.isEmpty then .ok ⟨none, []⟩
    else
      let combined := dataframes.flatMap (fun d => d.2)
      match combined.mapM toDatetimeRow with
      | .error e => .error e
      | .ok conv =>
        let sortedRows := sortImpl conv
        let deduped := dropDuplicatesByOpenTime sortedRows
        let final := deduped.map toNumericRow
        .ok ⟨some final, [(outputFile frequency, final)]⟩

/-! ## The downloader adapter (`try_download_resolution`) -/

/-- A calendar date (`datetime.date`). -/
structure PyDate where
  year : Int
  month : Int
  day : Int
deriving DecidableEq, Repr, Inhabited

/-- Lines 66-71: the constructor arguments of `BinanceDataDumper`. -/
structure DumperCfg where
  path_dir_where_to_dump : FsPath
  asset_class : String
  data_type : String
  data_frequency : String
deriving DecidableEq, Repr

/-- Lines 94-100: the arguments passed to `dump_data`. -/
structure DumpArgs where
  tickers : List String
  date_start : PyDate
  date_end : PyDate
  is_to_update_existing : Bool
  tickers_to_exclude : List String
deriving DecidableEq, Repr

/-- The external world the adapter interacts with: whether the directory
setup succeeds (`os.makedirs` and the dumper constructor, lines 63-71),
what `get_min_start_date_for_ticker` returns per frequency (`none`
models the query raising, line 74-78), the current date (line 83), and
whether the bulk download raises (lines 94-100). -/
structure DumperEnv where
  setupOk : String → Bool
  minStart : String → Option PyDate
  today : PyDate
  dumpRaises : String → DumpArgs → Bool

/-- Lines 62-71: the dumper configuration built for a frequency. -/
def dumperCfg (frequency : String) : DumperCfg :=
  { path_dir_where_to_dump := dataDir frequency
    asset_class := "spot"
    data_type := "klines"
    data_frequency := frequency }

/-- Lines 73-100: the `dump_data` call arguments for a frequency: start
date from the service query or the hardcoded fallback listing date
2020-08-11, end date today, `is_to_update_existing=False`, no excluded
tickers. -/
def dumpArgsFor (env : DumperEnv) (frequency : String) : DumpArgs :=
  { tickers := ["SOLUSDT"]
    date_start :=
      match env.minStart frequency with
      | some d => d
      | none => ⟨2020, 8, 11⟩
    date_end := env.today
    is_to_update_existing := false
    tickers_to_exclude := [] }

/-- Lines 51-106, `try_download_resolution(frequency)`: returns the
success boolean of the original function together with the `dump_data`
arguments when the call was reached (`none` when setup raised first);
every exception in the body is caught and turned into `False`
(lines 104-106). -/
def try_download_resolution (env : DumperEnv) (frequency : String) :
    Bool × Option DumpArgs :=
  if !env.setupOk frequency then (false, none)
  else
    let args := dumpArgsFor env frequency
    if env.dumpRaises frequency args then (false, some args)
    else (true, some args)

/-! ## The orchestrator (`get_all_solana_data`) -/

/-- Observable outcome of one `get_all_solana_data` run: the returned
value or the uncaught exception, the sequence of download attempts
(frequencies passed to `try_download_resolution`, in order), and the
files written. -/
structure RunOut where
  result : Except String (Option (List ProcRow))
  attempts : List String
  written : List (FsPath × List ProcRow)

/-- Lines 41-49, the 1-minute fallback half of `get_all_solana_data`;
`pre` is the list of download attempts already made. -/
def get_all_step2 (env : DumperEnv) (fs : FS) (locRaises : String → Bool)
    (sortImpl : List ProcRow → List ProcRow) (pre : List String) : RunOut :=
  if (try_download_resolution env "1m").1 then
    match process_downloaded_data fs (locRaises "1m") sortImpl "1m" with
    | .error e => ⟨.error e, pre ++ ["1m"], []⟩
    | .ok po => ⟨.ok po.result, pre ++ ["1m"], po.written⟩
  else ⟨.ok none, pre ++ ["1m"], []⟩

/-- Lines 20-49, `get_all_solana_data(try_seconds)`.  An exception raised
inside `process_downloaded_data` propagates out uncaught (there is no
`try` around those calls). -/
def get_all_solana_data (env : DumperEnv) (fs : FS) (locRaises : String → Bool)
    (sortImpl : List ProcRow → List ProcRow) (try_seconds : Bool) : RunOut :=
  if try_seconds then
    if (try_download_resolution env "1s").1 then
      match process_downloaded_data fs (locRaises "1s") sortImpl "1s" with
      | .error e => ⟨.error e, ["1s"], []⟩
      | .ok po => ⟨.ok po.result, ["1s"], po.written⟩
    else get_all_step2 env fs locRaises sortImpl ["1s"]
  else get_all_step2 env fs locRaises sortImpl []

/-! ## numpy's `argsort(kind='quicksort')`

`DataFrame.sort_values('Open time')` (line 180) with the default
`kind='quicksort'` sorts via `pandas.core.sorting.nargsort`, which calls
`numpy.argsort(kind='quicksort')` on the key column — numpy's introsort
(`aquicksort` in `npy_sort`): median-of-3 quicksort on the index array
with an insertion-sort cutoff of 16 elements and a heapsort fallback at
depth `2*msb(n)`.  The functions below are a direct executable
translation of that C routine (indices are positions into the value
array; out-of-range accesses, which the algorithm never performs, read 0
and write nothing). -/

/-- Read `t[i]` (0 out of range). -/
def aget (a : Array Nat) (i : Nat) : Nat := a.getD i 0

/-- Write `t[i] := v` (no-op out of range). -/
def aset (a : Array Nat) (i v : Nat) : Array Nat :=
  if h : i < a.size then a.set ⟨i, h⟩ v else a

/-- `INTP_SWAP(t[i], t[j])`. -/
def aswap (a : Array Nat) (i j : Nat) : Array Nat :=
  let x := aget a i
  let y := aget a j
  aset (aset a i y) j x

/-- Read `v[t[p]]`. -/
def vget (v : Array Int) (t : Array Nat) (p : Nat) : Int := v.getD (aget t p) 0

/-- `do ++pi; while (v[tosort[pi]] < vp)`. -/
def aqScanUp (v : Array Int) (t : Array Nat) (vp : Int) : Nat → Nat → Nat
  | 0, pi => pi + 1
  | fuel + 1, pi =>
    let pi' := pi + 1
    if vget v t pi' < vp then aqScanUp v t vp fuel pi' else pi'

/-- `do --pj; while (vp < v[tosort[pj]])`. -/
def aqScanDown (v : Array Int) (t : Array Nat) (vp : Int) : Nat → Nat → Nat
  | 0, pj => pj - 1
  | fuel + 1, pj =>
    let pj' := pj - 1
    if vp < vget v t pj' then aqScanDown v t vp fuel pj' else pj'

/-- The partition exchange loop; returns the final index array and `pi`. -/
def aqPartLoop (v : Array Int) (vp : Int) :
    Nat → Array Nat → Nat → Nat → Array Nat × Nat
  | 0, t, pi, _ => (t, pi)
  | fuel + 1, t, pi, pj =>
    let pi' := aqScanUp v t vp (v.size + 2) pi
    let pj' := aqScanDown v t vp (v.size + 2) pj
    if pi' ≥ pj' then (t, pi')
    else aqPartLoop v vp fuel (aswap t pi' pj') pi' pj'

/-- Inner shift loop of the insertion-sort phase. -/
def ainsInner (v : Array Int) (vi : Nat) (vp : Int) (pl : Nat) :
    Nat → Array Nat → Nat → Array Nat
  | 0, t, pj => aset t pj vi
  | fuel + 1, t, pj =>
    if pl < pj ∧ vp < vget v t (pj - 1) then
      ainsInner v vi vp pl fuel (aset t pj (aget t (pj - 1))) (pj - 1)
    else aset t pj vi

/-- Insertion sort of `t[pl..pr]` (the `pr - pl ≤ 15` case). -/
def ainsOuter (v : Array Int) (pl pr : Nat) : Nat → Array Nat → Nat → Array Nat
  | 0, t, _ => t
  | fuel + 1, t, pi =>
    if pi ≤ pr then
      let vi := aget t pi
      let vp := vget v t pi
      ainsOuter v pl pr fuel (ainsInner v vi vp pl (v.size + 2) t pi) (pi + 1)
    else t

/-- `a[i]` of the heapsort, which views `t[base..]` 1-based. -/
def hGet (t : Array Nat) (base i : Nat) : Nat := aget t (base + i - 1)

/-- `a[i] := x` of the heapsort. -/
def hSet (t : Array Nat) (base i x : Nat) : Array Nat := aset t (base + i - 1) x

/-- The sift-down loop shared by both heapsort phases; returns the final
index array and resting position `i` for `tmp`. -/
def hSift (v : Array Int) (base tmp n : Nat) :
    Nat → Array Nat → Nat → Nat → Array Nat × Nat
  | 0, t, i, _ => (t, i)
  | fuel + 1, t, i, j =>
    if j ≤ n then
      let j := if j < n ∧ v.getD (hGet t base j) 0 < v.getD (hGet t base (j + 1)) 0
        then j + 1 else j
      if v.getD tmp 0 < v.getD (hGet t base j) 0 then
        hSift v base tmp n fuel (hSet t base i (hGet t base j)) j (j + j)
      else (t, i)
    else (t, i)

/-- Heap construction phase (`l = n >> 1` down to `1`). -/
def hBuild (v : Array Int) (base n : Nat) : Nat → Array Nat → Nat → Array Nat
  | 0, t, _ => t
  | fuel + 1, t, l =>
    if l > 0 then
      let tmp := hGet t base l
      let r := hSift v base tmp n (n + 2) t l (l + l)
      hBuild v base n fuel (hSet r.1 base r.2 tmp) (l - 1)
    else t

/-- Extraction phase (`n` down to `2`). -/
def hExtract (v : Array Int) (base : Nat) : Nat → Array Nat → Nat → Array Nat
  | 0, t, _ => t
  | fuel + 1, t, n =>
    if n > 1 then
      let tmp := hGet t base n
      let t := hSet t base n (hGet t base 1)
      let n := n - 1
      let r := hSift v base tmp n (n + 2) t 1 2
      hExtract v base fuel (hSet r.1 base r.2 tmp) n
    else t

/-- numpy `aheapsort` on the subrange `t[base .. base+n-1]`. -/
def aheapsortArg (v : Array Int) (t : Array Nat) (base n : Nat) : Array Nat :=
  hExtract v base (n + 2) (hBuild v base n (n + 2) t (n / 2)) n

/-- The main `aquicksort` loop: explicit partition stack, depth budget,
median-of-3 pivot, 16-element insertion-sort cutoff. -/
def aqMain (v : Array Int) :
    Nat → Array Nat → List (Nat × Nat) → Int → Nat → Nat → Array Nat
  | 0, t, _, _, _, _ => t
  | fuel + 1, t, stk, depth, pl, pr =>
    if pr - pl > 15 then
      if depth < 0 then
        let t := aheapsortArg v t pl (pr - pl + 1)
        match stk with
        | [] => t
        | (pl', pr') :: st => aqMain v fuel t st (depth - 1) pl' pr'
      else
        let pm := pl + (pr - pl) / 2
        let t := if vget v t pm < vget v t pl then aswap t pm pl else t
        let t := if vget v t pr < vget v t pm then aswap t pr pm else t
        let t := if vget v t pm < vget v t pl then aswap t pm pl else t
        let vp := vget v t pm
        let t := aswap t pm (pr - 1)
        let res := aqPartLoop v vp (v.size + 2) t pl (pr - 1)
        let t := aswap res.1 res.2 (pr - 1)
        let pi := res.2
        if pi - pl < pr - pi then
          aqMain v fuel t ((pi + 1, pr) :: stk) (depth - 1) pl (pi - 1)
        else
          aqMain v fuel t ((pl, pi - 1) :: stk) (depth - 1) (pi + 1) pr
    else
      let t := ainsOuter v pl pr (pr + 2 - pl) t (pl + 1)
      match stk with
      | [] => t
      | (pl', pr') :: st => aqMain v fuel t st depth pl' pr'

/-- `numpy.argsort(v, kind='quicksort')`: the permutation of `0..n-1`
introsort produces for the values `v`. -/
def npArgsort (v : Array Int) : Array Nat :=
  let n := v.size
  aqMain v ((n + 2) * (n + 2) + 2) (Array.range n) []
    (Int.ofNat (Nat.log2 (max n 1) * 2)) 0 (n - 1)

/-- Line 180 with pandas defaults: `nargsort` argsorts the non-`NaT` keys
with numpy quicksort and appends the `NaT` positions at the end
(`na_position='last'`), and the frame is reindexed by that permutation. -/
def numpySortValues (l : List ProcRow) : List ProcRow :=
  let arr := l.toArray
  let idxs := List.range l.length
  let nonNan := (idxs.filter (fun i => (arr.getD i default).openTime ≠ none)).toArray
  let nanIdx := idxs.filter (fun i => (arr.getD i default).openTime = none)
  let vals : Array Int := nonNan.map (fun i => ((arr.getD i default).openTime).getD 0)
  let perm := npArgsort vals
  let order := perm.toList.map (fun p => nonNan.getD p 0) ++ nanIdx
  order.map (fun i => arr.getD i default)

/-- The converted concatenation of all loaded rows — the single fallible
stage of the merge step. -/
def convResult (fs : FS) (locRaises : Bool) (frequency : String) :
    Except String (List ProcRow) :=
  ((loadAll fs (sortPaths (collectCsv fs (selectDir fs locRaises frequency)))).flatMap
    (fun d => d.2)).mapM toDatetimeRow

/-- Claim-side statement (from the spec's words) of what numeric coercion
must do to one cell, to be compared with `toNumericCell`: numeric cells
and missing values unchanged, parseable strings become their number,
unparseable strings become the missing marker. -/
def NumSpec (c c' : Cell) : Prop :=
  (∀ q, c = .num q → c' = .num q) ∧
  (c = .nan → c' = .nan) ∧
  (∀ s, c = .str s →
    (∀ q, parseRat s = some q → c' = .num q) ∧ (parseRat s = none → c' = .nan))

/-! ## Concrete scenarios used by counterexamples and witnesses -/

/-- A kline row whose open and close time are the epoch value `k` and
whose `Close` cell carries the marker `tag` identifying the source row. -/
def c1row (k : Int) (tag : ℚ) : Row :=
  { openTime := .num k, closeTime := .num k, openP := .num 1, highP := .num 1
    lowP := .num 1, closeP := .num tag, volume := .num 1 }

/-- The converted form of `c1row`. -/
def c1proc (k : Int) (tag : ℚ) : ProcRow :=
  { openTime := some k, closeTime := some k, openP := .num 1, highP := .num 1
    lowP := .num 1, closeP := .num tag, volume := .num 1 }

/-- First input file `a.csv`: open time 100 appears at markers 1 and 8. -/
def c1rowsA : List Row :=
  [c1row 10 0, c1row 100 1, c1row 20 2, c1row 30 3, c1row 40 4, c1row 50 5,
   c1row 60 6, c1row 70 7, c1row 100 8]

/-- Second input file `b.csv`: open time 100 appears at marker 14. -/
def c1rowsB : List Row :=
  [c1row 200 9, c1row 210 10, c1row 220 11, c1row 230 12, c1row 240 13,
   c1row 100 14, c1row 250 15, c1row 260 16]

/-- A downloaded tree holding the two files in the 1s daily directory. -/
def c1fs : FS :=
  [⟨dailyDir "1s", [("a.csv", some c1rowsA), ("b.csv", some c1rowsB)]⟩]

/-- The per-file converted chunks of the `c1fs` scenario. -/
def c1chunks : List (List ProcRow) :=
  [[c1proc 10 0, c1proc 100 1, c1proc 20 2, c1proc 30 3, c1proc 40 4,
    c1proc 50 5, c1proc 60 6, c1proc 70 7, c1proc 100 8],
   [c1proc 200 9, c1proc 210 10, c1proc 220 11, c1proc 230 12, c1proc 240 13,
    c1proc 100 14, c1proc 250 15, c1proc 260 16]]

/-- The merge result of the `c1fs` scenario under the code's numpy
quicksort (`None` if the run raised). -/
def c1npOut : Option (List ProcRow) :=
  match process_downloaded_data c1fs false numpySortValues "1s" with
  | .ok po => po.result
  | .error _ => none

/-- An environment in which directory setup and every bulk download
succeed and the earliest-date query raises. -/
def wOkEnv : DumperEnv :=
  { setupOk := fun _ => true
    minStart := fun _ => none
    today := ⟨2026, 1, 1⟩
    dumpRaises := fun _ _ => false }

/-- An environment in which every download attempt fails. -/
def wFailEnv : DumperEnv :=
  { setupOk := fun _ => false
    minStart := fun _ => none
    today := ⟨2026, 1, 1⟩
    dumpRaises := fun _ _ => true }

/-- A well-formed single-file tree: two rows with distinct open times,
one non-numeric price cell (`"oops"`), the SOL listing timestamp
1597104000000 among the open times. -/
def wrows : List Row :=
  [{ openTime := .num 1597104000000, closeTime := .num 1597104059999
     openP := .num 21, highP := .str "oops", lowP := .num (mkRat 41 2)
     closeP := .str "21.5", volume := .num 1000 },
   { openTime := .num 1597104060000, closeTime := .num 1597104119999
     openP := .num 22, highP := .num 23, lowP := .num 21
     closeP := .num 22, volume := .num 900 }]

/-- A tree holding `wrows` as the only file of the 1s daily directory. -/
def wfs : FS :=
  [⟨dailyDir "1s", [("w.csv", some wrows)]⟩]

/-- The converted rows of `wrows`. -/
def wconv : List ProcRow :=
  [{ openTime := some 1597104000000, closeTime := some 1597104059999
     openP := .num 21, highP := .str "oops", lowP := .num (mkRat 41 2)
     closeP := .str "21.5", volume := .num 1000 },
   { openTime := some 1597104060000, closeTime := some 1597104119999
     openP := .num 22, highP := .num 23, lowP := .num 21
     closeP := .num 22, volume := .num 900 }]

/-- A tree whose only file has a non-numeric `Open time` cell. -/
def c4fs : FS :=
  [⟨dailyDir "1s", [("bad.csv", some
    [{ openTime := .str "corrupted", closeTime := .num 1, openP := .num 1
       highP := .num 1, lowP := .num 1, closeP := .num 1, volume := .num 1 }])]⟩]

/-- The merged output of the `wfs` scenario under the stable reference
sort. -/
def wout : List ProcRow :=
  [{ openTime := some 1597104000000, closeTime := some 1597104059999
     openP := .num 21, highP := .nan, lowP := .num (mkRat 41 2)
     closeP := .num (mkRat 43 2), volume := .num 1000 },
   { openTime := some 1597104060000, closeTime := some 1597104119999
     openP := .num 22, highP := .num 23, lowP := .num 21
     closeP := .num 22, volume := .num 900 }]

/-! ## Lemmas: string and path containment -/

theorem listLeads_iff {a b : List Char} :
    listLeads a b = true ↔ ∃ t, b = a ++ t := by
  induction a generalizing b with
  | nil => simp [listLeads]
  | cons x xs ih =>
    cases b with
    | nil =>
      simp only [listLeads, List.cons_append]
      constructor
      · intro h; cases h
      · rintro ⟨t, h⟩; cases h
    | cons y ys =>
      simp only [listLeads, List.cons_append, Bool.and_eq_true, beq_iff_eq, ih]
      constructor
      · rintro ⟨rfl, t, rfl⟩; exact ⟨t, rfl⟩
      · rintro ⟨t, h⟩
        injection h with h1 h2
        exact ⟨h1.symm, t, h2⟩

theorem listLeads_trans {a b c : List Char} (h1 : listLeads a b = true)
    (h2 : listLeads b c = true) : listLeads a c = true := by
  obtain ⟨t, rfl⟩ := listLeads_iff.mp h1
  obtain ⟨u, rfl⟩ := listLeads_iff.mp h2
  exact listLeads_iff.mpr ⟨t ++ u, List.append_assoc _ _ _⟩

theorem listLeads_append_right {a b : List Char} (c : List Char)
    (h : listLeads a b = true) : listLeads a (b ++ c) = true := by
  obtain ⟨t, rfl⟩ := listLeads_iff.mp h
  exact listLeads_iff.mpr ⟨t ++ c, List.append_assoc _ _ _⟩

theorem leads_comparable {a b c : List Char}
    (ha : listLeads a c = true) (hb : listLeads b c = true) :
    listLeads a b = true ∨ listLeads b a = true := by
  obtain ⟨t1, h1⟩ := listLeads_iff.mp ha
  obtain ⟨t2, h2⟩ := listLeads_iff.mp hb
  have key : ∀ (x y u v : List Char), x ++ u = y ++ v →
      x.length ≤ y.length → listLeads x y = true := by
    intro x y u v h hxy
    have hx : x = y.take x.length := by
      have h' := congrArg (List.take x.length) h
      rw [List.take_left] at h'
      rw [List.take_append_eq_append_take, Nat.sub_eq_zero_of_le hxy,
        List.take_zero, List.append_nil] at h'
      exact h'
    refine listLeads_iff.mpr ⟨y.drop x.length, ?_⟩
    conv_lhs => rw [← List.take_append_drop x.length y, ← hx]
  rcases Nat.le_total a.length b.length with hle | hle
  · exact Or.inl (key a b t1 t2 (h1.symm.trans h2) hle)
  · exact Or.inr (key b a t2 t1 (h2.symm.trans h1) hle)

theorem strLeads_iff {p s : String} :
    strLeads p s = true ↔ ∃ t, s.data = p.data ++ t := by
  unfold strLeads; exact listLeads_iff

theorem underDir_self (d : FsPath) : underDir d d = true := by
  simp [underDir]

theorem underDir_trans {a b c : FsPath} (h1 : underDir a b = true)
    (h2 : underDir b c = true) : underDir a c = true := by
  unfold underDir at h1 h2 ⊢
  rcases Bool.or_eq_true_iff.mp h1 with hb | hb
  · have hba : b = a := by simpa using hb
    rw [← hba]; exact h2
  · rcases Bool.or_eq_true_iff.mp h2 with hc | hc
    · have hcb : c = b := by simpa using hc
      rw [hcb]
      exact Bool.or_eq_true_iff.mpr (Or.inr hb)
    · refine Bool.or_eq_true_iff.mpr (Or.inr ?_)
      unfold strLeads at hb hc ⊢
      refine listLeads_trans hb ?_
      obtain ⟨t, ht⟩ := listLeads_iff.mp hb
      refine listLeads_trans ?_ hc
      rw [String.data_append, ht, String.data_append]
      exact listLeads_iff.mpr ⟨"/".data, by simp [List.append_assoc]⟩

/-! ## Lemmas: the sort contract and stability of the reference sort -/

theorem keyLeB_refl (a : Option Int) : keyLeB a a = true := by
  cases a <;> simp [keyLeB]

theorem rowLe_of_eq_key {x b : ProcRow} (h : x.openTime = b.openTime) : rowLe x b := by
  unfold rowLe
  rw [h]
  exact keyLeB_refl _

theorem sortSpec_stableSortRows : SortSpec stableSortRows :=
  fun l => ⟨List.perm_insertionSort rowLe l, List.sorted_insertionSort rowLe l⟩

theorem orderedInsert_filter_key (x : ProcRow) (l : List ProcRow) (k : Option Int) :
    (l.orderedInsert rowLe x).filter (fun r => decide (r.openTime = k)) =
      if x.openTime = k then x :: l.filter (fun r => decide (r.openTime = k))
      else l.filter (fun r => decide (r.openTime = k)) := by
  induction l with
  | nil =>
    simp only [List.orderedInsert, List.filter]
    by_cases hx : x.openTime = k <;> simp [hx]
  | cons b bs ih =>
    simp only [List.orderedInsert]
    by_cases hle : rowLe x b
    · rw [if_pos hle]
      by_cases hx : x.openTime = k <;> simp [List.filter, hx]
    · rw [if_neg hle]
      have hbk : x.openTime = k → ¬(b.openTime = k) := by
        intro hx hb
        exact hle (rowLe_of_eq_key (hx.trans hb.symm))
      by_cases hb : b.openTime = k
      · have hx : ¬(x.openTime = k) := fun hx => hbk hx hb
        simp [List.filter, hb, hx, ih]
      · by_cases hx : x.openTime = k <;> simp [List.filter, hb, hx, ih]

theorem stableSort_stableSortRows : StableSort stableSortRows := by
  intro l k
  induction l with
  | nil => rfl
  | cons x xs ih =>
    unfold stableSortRows at ih ⊢
    show ((xs.insertionSort rowLe).orderedInsert rowLe x).filter _ = _
    rw [orderedInsert_filter_key]
    by_cases hx : x.openTime = k <;> simp [List.filter_cons, hx, ih]

/-! ## Lemmas: `drop_duplicates(keep='first')` -/

theorem dedupGo_filter_mem {k : Option Int} :
    ∀ (l : List ProcRow) (seen : List (Option Int)), k ∈ seen →
      (dropDuplicatesGo seen l).filter (fun r => decide (r.openTime = k)) = [] := by
  intro l
  induction l with
  | nil => intro seen _; rfl
  | cons r rs ih =>
    intro seen hk
    simp only [dropDuplicatesGo]
    by_cases hr : r.openTime ∈ seen
    · rw [if_pos hr]; exact ih seen hk
    · rw [if_neg hr]
      have hrk : ¬(r.openTime = k) := fun h => hr (h ▸ hk)
      rw [List.filter_cons]
      simp only [hrk, decide_eq_true_eq, if_false, decide_eq_false, Bool.false_eq_true]
      exact ih _ (List.mem_cons_of_mem _ hk)

theorem dedupGo_filter_not_mem {k : Option Int} :
    ∀ (l : List ProcRow) (seen : List (Option Int)), k ∉ seen →
      (dropDuplicatesGo seen l).filter (fun r => decide (r.openTime = k)) =
        ((l.filter (fun r => decide (r.openTime = k))).head?).toList := by
  intro l
  induction l with
  | nil => intro seen _; rfl
  | cons r rs ih =>
    intro seen hk
    simp only [dropDuplicatesGo]
    by_cases hr : r.openTime ∈ seen
    · rw [if_pos hr]
      have hrk : ¬(r.openTime = k) := fun h => hk (h ▸ hr)
      rw [ih seen hk]
      simp [List.filter_cons, hrk]
    · rw [if_neg hr]
      by_cases hrk : r.openTime = k
      · subst hrk
        have h0 := dedupGo_filter_mem rs (r.openTime :: seen) (List.mem_cons_self _ _)
        rw [List.filter_cons, List.filter_cons]
        simp [h0]
      · rw [List.filter_cons, List.filter_cons]
        have hne : k ∉ r.openTime :: seen := by
          intro hmem
          rcases List.mem_cons.mp hmem with h | h
          · exact hrk h.symm
          · exact hk h
        simp [hrk, ih _ hne]

theorem dedupGo_sublist : ∀ (l : List ProcRow) (seen : List (Option Int)),
    (dropDuplicatesGo seen l).Sublist l := by
  intro l
  induction l with
  | nil => intro seen; exact List.Sublist.refl _
  | cons r rs ih =>
    intro seen
    simp only [dropDuplicatesGo]
    by_cases hr : r.openTime ∈ seen
    · rw [if_pos hr]; exact (ih seen).cons _
    · rw [if_neg hr]; exact (ih _).cons₂ _

theorem dedupGo_not_seen : ∀ (l : List ProcRow) (seen : List (Option Int)) (r : ProcRow),
    r ∈ dropDuplicatesGo seen l → r.openTime ∉ seen := by
  intro l
  induction l with
  | nil => intro seen r h; cases h
  | cons x xs ih =>
    intro seen r h
    simp only [dropDuplicatesGo] at h
    by_cases hx : x.openTime ∈ seen
    · rw [if_pos hx] at h; exact ih seen r h
    · rw [if_neg hx] at h
      rcases List.mem_cons.mp h with rfl | h
      · exact hx
      · intro hmem
        exact ih _ r h (List.mem_cons_of_mem _ hmem)

theorem dedupGo_pairwise_ne : ∀ (l : List ProcRow) (seen : List (Option Int)),
    (dropDuplicatesGo seen l).Pairwise (fun a b => a.openTime ≠ b.openTime) := by
  intro l
  induction l with
  | nil => intro seen; exact List.Pairwise.nil
  | cons x xs ih =>
    intro seen
    simp only [dropDuplicatesGo]
    by_cases hx : x.openTime ∈ seen
    · rw [if_pos hx]; exact ih seen
    · rw [if_neg hx]
      refine List.Pairwise.cons ?_ (ih _)
      intro b hb h
      exact dedupGo_not_seen xs _ b hb (h ▸ List.mem_cons_self _ _)

theorem dedupGo_eq_self : ∀ (l : List ProcRow) (seen : List (Option Int)),
    (l.map (fun r => r.openTime)).Nodup → (∀ r ∈ l, r.openTime ∉ seen) →
    dropDuplicatesGo seen l = l := by
  intro l
  induction l with
  | nil => intro seen _ _; rfl
  | cons x xs ih =>
    intro seen hnd hseen
    rw [List.map_cons] at hnd
    have hnd' := List.nodup_cons.mp hnd
    simp only [dropDuplicatesGo]
    rw [if_neg (hseen x (List.mem_cons_self _ _))]
    congr 1
    refine ih _ hnd'.2 ?_
    intro r hr hmem
    rcases List.mem_cons.mp hmem with h | h
    · exact hnd'.1 (h ▸ List.mem_map_of_mem (fun r => r.openTime) hr)
    · exact hseen r (List.mem_cons_of_mem _ hr) h

/-! ## Lemmas: `mapM` over `Except` and list decompositions -/


/-! ## Lemmas: `mapM` over `Except` and the pipeline stages -/

theorem mapM_ok_iff {α β : Type} (g : α → Except String β) :
    ∀ (l : List α) (b : List β),
      l.mapM g = .ok b ↔ List.Forall₂ (fun a x => g a = .ok x) l b := by
  intro l
  induction l with
  | nil =>
    intro b
    rw [List.mapM_nil]
    constructor
    · intro h
      cases Except.ok.inj h
      exact List.Forall₂.nil
    · intro h
      cases h
      rfl
  | cons a l ih =>
    intro b
    constructor
    · intro h
      rw [List.mapM_cons] at h
      cases hga : g a with
      | error e => rw [hga] at h; exact Except.noConfusion h
      | ok x =>
        rw [hga] at h
        cases hl : l.mapM g with
        | error e => rw [hl] at h; exact Except.noConfusion h
        | ok xs =>
          rw [hl] at h
          cases Except.ok.inj h
          exact List.Forall₂.cons hga ((ih xs).mp hl)
    · intro h
      cases h with
      | cons hax hrest =>
        rw [List.mapM_cons, hax, (ih _).mpr hrest]
        rfl

theorem forall₂_append {α β : Type} {R : α → β → Prop}
    {l₁ l₂ : List α} {b₁ b₂ : List β}
    (h₁ : List.Forall₂ R l₁ b₁) (h₂ : List.Forall₂ R l₂ b₂) :
    List.Forall₂ R (l₁ ++ l₂) (b₁ ++ b₂) := by
  induction h₁ with
  | nil => exact h₂
  | cons h _ ih => exact List.Forall₂.cons h ih

theorem mapM_ok_flatten {dfs : List (FsPath × List Row)} {chunks : List (List ProcRow)}
    (h : List.Forall₂ (fun d c => d.2.mapM toDatetimeRow = .ok c) dfs chunks) :
    (dfs.flatMap (fun d => d.2)).mapM toDatetimeRow = .ok chunks.flatten := by
  induction h with
  | nil => rfl
  | cons hd hrest ih =>
    rw [List.flatMap_cons, List.flatten_cons]
    exact (mapM_ok_iff _ _ _).mpr
      (forall₂_append ((mapM_ok_iff _ _ _).mp hd) ((mapM_ok_iff _ _ _).mp ih))

theorem process_eq (fs : FS) (lr : Bool) (s : List ProcRow → List ProcRow)
    (f : String) :
    process_downloaded_data fs lr s f =
      if (collectCsv fs (selectDir fs lr f)).isEmpty then .ok ⟨none, []⟩
      else if (loadAll fs (sortPaths (collectCsv fs (selectDir fs lr f)))).isEmpty
        then .ok ⟨none, []⟩
      else
        match convResult fs lr f with
        | .error e => .error e
        | .ok conv =>
          .ok ⟨some ((dropDuplicatesByOpenTime (s conv)).map toNumericRow),
            [(outputFile f, (dropDuplicatesByOpenTime (s conv)).map toNumericRow)]⟩ :=
  rfl

theorem process_ok_char {fs : FS} {lr : Bool} {s : List ProcRow → List ProcRow}
    {f : String} {po : ProcOut} {out : List ProcRow}
    (hok : process_downloaded_data fs lr s f = .ok po)
    (hres : po.result = some out) :
    ∃ conv, convResult fs lr f = .ok conv ∧
      out = (dropDuplicatesByOpenTime (s conv)).map toNumericRow ∧
      po.written = [(outputFile f, out)] := by
  rw [process_eq] at hok
  by_cases h1 : (collectCsv fs (selectDir fs lr f)).isEmpty
  · rw [if_pos h1] at hok
    cases Except.ok.inj hok
    exact Option.noConfusion hres
  · rw [if_neg h1] at hok
    by_cases h2 : (loadAll fs (sortPaths (collectCsv fs (selectDir fs lr f)))).isEmpty
    · rw [if_pos h2] at hok
      cases Except.ok.inj hok
      exact Option.noConfusion hres
    · rw [if_neg h2] at hok
      cases hc : convResult fs lr f with
      | error e => rw [hc] at hok; exact Except.noConfusion hok
      | ok conv =>
        rw [hc] at hok
        cases Except.ok.inj hok
        have hfo := Option.some.inj hres
        refine ⟨conv, rfl, hfo.symm, ?_⟩
        rw [← hfo]

theorem process_none_of_empty {fs : FS} {lr : Bool} {s : List ProcRow → List ProcRow}
    {f : String}
    (h : (collectCsv fs (selectDir fs lr f)).isEmpty = true ∨
      (loadAll fs (sortPaths (collectCsv fs (selectDir fs lr f)))).isEmpty = true) :
    process_downloaded_data fs lr s f = .ok ⟨none, []⟩ := by
  rw [process_eq]
  rcases h with h | h
  · rw [if_pos h]
  · by_cases h1 : (collectCsv fs (selectDir fs lr f)).isEmpty
    · rw [if_pos h1]
    · rw [if_neg h1, if_pos h]

theorem process_error_conv {fs : FS} {lr : Bool} {s : List ProcRow → List ProcRow}
    {f : String} {e : String}
    (h : process_downloaded_data fs lr s f = .error e) :
    convResult fs lr f = .error e := by
  rw [process_eq] at h
  by_cases h1 : (collectCsv fs (selectDir fs lr f)).isEmpty
  · rw [if_pos h1] at h; exact Except.noConfusion h
  · rw [if_neg h1] at h
    by_cases h2 : (loadAll fs (sortPaths (collectCsv fs (selectDir fs lr f)))).isEmpty
    · rw [if_pos h2] at h; exact Except.noConfusion h
    · rw [if_neg h2] at h
      cases hc : convResult fs lr f with
      | error e2 =>
        rw [hc] at h
        cases Except.error.inj h
        rfl
      | ok conv => rw [hc] at h; exact Except.noConfusion h

theorem process_ok_of_conv {fs : FS} {lr : Bool} {s : List ProcRow → List ProcRow}
    {f : String} {conv : List ProcRow} (h : convResult fs lr f = .ok conv) :
    ∃ po, process_downloaded_data fs lr s f = .ok po := by
  rw [process_eq]
  by_cases h1 : (collectCsv fs (selectDir fs lr f)).isEmpty
  · rw [if_pos h1]; exact ⟨_, rfl⟩
  · rw [if_neg h1]
    by_cases h2 : (loadAll fs (sortPaths (collectCsv fs (selectDir fs lr f)))).isEmpty
    · rw [if_pos h2]; exact ⟨_, rfl⟩
    · rw [if_neg h2, h]
      exact ⟨_, rfl⟩

theorem head_of_filter_find {α : Type} (p : α → Bool) :
    ∀ l : List α, (l.filter p).head? = l.find? p := by
  intro l
  induction l with
  | nil => rfl
  | cons x xs ih =>
    rw [List.filter_cons, List.find?_cons]
    cases hx : p x
    · simp [ih]
    · rfl

theorem filter_flatten_head (p : ProcRow → Bool) :
    ∀ chunks : List (List ProcRow),
      (chunks.flatten.filter p).head? =
        (chunks.find? (fun c => c.any p)).bind (fun c => (c.filter p).head?) := by
  intro chunks
  induction chunks with
  | nil => rfl
  | cons c cs ih =>
    rw [List.flatten_cons, List.filter_append, List.head?_append, List.find?_cons]
    cases hc : c.any p with
    | false =>
      have hnil : c.filter p = [] := by
        rw [List.filter_eq_nil_iff]
        intro a ha hpa
        have : c.any p = true := List.any_eq_true.mpr ⟨a, ha, hpa⟩
        rw [hc] at this
        exact Bool.noConfusion this
      rw [hnil]
      simpa using ih
    | true =>
      have hne : c.filter p ≠ [] := by
        intro hnil
        obtain ⟨a, ha, hpa⟩ := List.any_eq_true.mp hc
        have : a ∈ c.filter p := List.mem_filter.mpr ⟨ha, hpa⟩
        rw [hnil] at this
        cases this
      cases hf : (c.filter p).head? with
      | none => exact absurd (List.head?_eq_none_iff.mp hf) hne
      | some a =>
        have hfind : List.find? p c = some a := by
          rw [← head_of_filter_find]; exact hf
        simp [hf, hfind]

/-! ## Lemmas: the file locator -/

theorem find?_first {α : Type} (p : α → Bool) (pre : List α) (e : α) (post : List α)
    (hpre : ∀ x ∈ pre, p x = false) (he : p e = true) :
    List.find? p (pre ++ e :: post) = some e := by
  induction pre with
  | nil =>
    rw [List.nil_append, List.find?_cons, he]
  | cons x xs ih =>
    rw [List.cons_append, List.find?_cons, hpre x (List.mem_cons_self _ _)]
    exact ih (fun y hy => hpre y (List.mem_cons_of_mem _ hy))

theorem underDir_join (d p n : FsPath) (h : underDir d p = true) :
    underDir d (p ++ "/" ++ n) = true := by
  unfold underDir at h ⊢
  refine Bool.or_eq_true_iff.mpr (Or.inr ?_)
  rcases Bool.or_eq_true_iff.mp h with hp | hp
  · have hpd : p = d := by simpa using hp
    subst hpd
    unfold strLeads
    rw [String.data_append]
    exact listLeads_append_right _ (listLeads_iff.mpr ⟨[], (List.append_nil _).symm⟩)
  · unfold strLeads at hp ⊢
    rw [String.data_append, String.data_append]
    exact listLeads_append_right _ (listLeads_append_right _ hp)

theorem walkFrom_under {fs : FS} {root : FsPath} {e : DirEntry}
    (h : e ∈ walkFrom fs root) : e ∈ fs ∧ underDir root e.path = true := by
  unfold walkFrom at h
  exact List.mem_filter.mp h

theorem selectDir_under (fs : FS) (lr : Bool) (f : String) :
    underDir (dataDir f) (selectDir fs lr f) = true := by
  have hdaily : underDir (dataDir f) (dailyDir f) = true := by
    unfold underDir dailyDir
    refine Bool.or_eq_true_iff.mpr (Or.inr ?_)
    unfold strLeads
    have hsplit : "/spot/daily/klines/SOLUSDT/".data =
        "/".data ++ "spot/daily/klines/SOLUSDT/".data := rfl
    refine listLeads_iff.mpr ⟨"spot/daily/klines/SOLUSDT/".data ++ f.data, ?_⟩
    rw [String.data_append, String.data_append, String.data_append, hsplit]
    simp [List.append_assoc]
  have hmonthly : underDir (dataDir f) (monthlyDir f) = true := by
    unfold underDir monthlyDir
    refine Bool.or_eq_true_iff.mpr (Or.inr ?_)
    unfold strLeads
    have hsplit : "/spot/monthly/klines/SOLUSDT/".data =
        "/".data ++ "spot/monthly/klines/SOLUSDT/".data := rfl
    refine listLeads_iff.mpr ⟨"spot/monthly/klines/SOLUSDT/".data ++ f.data, ?_⟩
    rw [String.data_append, String.data_append, String.data_append, hsplit]
    simp [List.append_assoc]
  unfold selectDir
  by_cases h0 : lr
  · rw [if_pos h0]; exact underDir_self _
  · rw [if_neg h0]
    by_cases h1 : pathExists fs (dailyDir f)
    · rw [if_pos h1]; exact hdaily
    · rw [if_neg h1]
      by_cases h2 : pathExists fs (monthlyDir f)
      · rw [if_pos h2]; exact hmonthly
      · rw [if_neg h2]
        cases hfind : findCsvDir fs (dataDir f) with
        | none => exact hmonthly
        | some p =>
          unfold findCsvDir at hfind
          cases hf : (walkFrom fs (dataDir f)).find?
              (fun e => e.files.any (fun fl => strEnds ".csv" fl.1)) with
          | none => rw [hf] at hfind; exact Option.noConfusion hfind
          | some e =>
            rw [hf] at hfind
            have hep := Option.some.inj hfind
            have hmem := List.mem_of_find?_eq_some hf
            have := (walkFrom_under hmem).2
            rw [← hep]
            exact this

theorem mem_collectCsv {fs : FS} {dir p : FsPath} :
    p ∈ collectCsv fs dir ↔
      ∃ e, e ∈ fs ∧ underDir dir e.path = true ∧
        ∃ fl, fl ∈ e.files ∧ strEnds ".csv" fl.1 = true ∧ p = e.path ++ "/" ++ fl.1 := by
  unfold collectCsv
  rw [List.mem_flatMap]
  constructor
  · rintro ⟨e, he, hp⟩
    obtain ⟨hefs, hund⟩ := walkFrom_under he
    obtain ⟨fl, hfl, hflp⟩ := List.mem_map.mp hp
    obtain ⟨hflmem, hcsv⟩ := List.mem_filter.mp hfl
    exact ⟨e, hefs, hund, fl, hflmem, hcsv, hflp.symm⟩
  · rintro ⟨e, hefs, hund, fl, hflmem, hcsv, rfl⟩
    refine ⟨e, ?_, ?_⟩
    · unfold walkFrom
      exact List.mem_filter.mpr ⟨hefs, hund⟩
    · exact List.mem_map.mpr ⟨fl, List.mem_filter.mpr ⟨hflmem, hcsv⟩, rfl⟩

theorem collectCsv_under {fs : FS} {dir p : FsPath} (hp : p ∈ collectCsv fs dir) :
    underDir dir p = true := by
  obtain ⟨e, _, hund, fl, _, _, rfl⟩ := mem_collectCsv.mp hp
  exact underDir_join _ _ _ hund

/-! ## Lemmas: the orchestrator -/

theorem step2_attempts (env : DumperEnv) (fs : FS) (locRaises : String → Bool)
    (sortImpl : List ProcRow → List ProcRow) (pre : List String) :
    (get_all_step2 env fs locRaises sortImpl pre).attempts = pre ++ ["1m"] := by
  unfold get_all_step2
  split
  · split <;> rfl
  · rfl

theorem step2_fail (env : DumperEnv) (fs : FS) (locRaises : String → Bool)
    (sortImpl : List ProcRow → List ProcRow) (pre : List String)
    (h : (try_download_resolution env "1m").1 = false) :
    get_all_step2 env fs locRaises sortImpl pre = ⟨.ok none, pre ++ ["1m"], []⟩ := by
  unfold get_all_step2
  rw [if_neg (by simp [h])]

theorem run_eq_step2 (env : DumperEnv) (fs : FS) (locRaises : String → Bool)
    (sortImpl : List ProcRow → List ProcRow)
    (h1s : (try_download_resolution env "1s").1 = false) :
    get_all_solana_data env fs locRaises sortImpl true =
      get_all_step2 env fs locRaises sortImpl ["1s"] := by
  unfold get_all_solana_data
  rw [if_pos rfl, if_neg (by simp [h1s])]

/-- C3: with `try_seconds` set, when the 1-second download attempt fails
the orchestrator attempts the 1-minute download exactly once and never
attempts the 1-second resolution again (the attempt sequence is exactly
`["1s", "1m"]`), and when the 1-minute attempt also fails the run
returns `None` and writes nothing, with no further attempt. -/
theorem C3_fallback_once (env : DumperEnv) (fs : FS) (locRaises : String → Bool)
    (sortImpl : List ProcRow → List ProcRow)
    (h1s : (try_download_resolution env "1s").1 = false) :
    (get_all_solana_data env fs locRaises sortImpl true).attempts = ["1s", "1m"] ∧
    (get_all_solana_data env fs locRaises sortImpl true).attempts.count "1m" = 1 ∧
    (get_all_solana_data env fs locRaises sortImpl true).attempts.count "1s" = 1 ∧
    ((try_download_resolution env "1m").1 = false →
      (get_all_solana_data env fs locRaises sortImpl true).result = .ok none ∧
      (get_all_solana_data env fs locRaises sortImpl true).written = []) := by
  rw [run_eq_step2 env fs locRaises sortImpl h1s]
  refine ⟨step2_attempts _ _ _ _ _, ?_, ?_, ?_⟩
  · rw [step2_attempts]; rfl
  · rw [step2_attempts]; rfl
  · intro h1m
    rw [step2_fail _ _ _ _ _ h1m]
    exact ⟨rfl, rfl⟩

/-- Witness for C3 at a concrete environment in which both downloads
fail. -/
theorem C3_fallback_once_witness :
    (get_all_solana_data wFailEnv [] (fun _ => false) stableSortRows true).attempts =
      ["1s", "1m"] ∧
    (get_all_solana_data wFailEnv [] (fun _ => false) stableSortRows true).result =
      .ok none := by
  have h := C3_fallback_once wFailEnv [] (fun _ => false) stableSortRows (by rfl)
  exact ⟨h.1, (h.2.2.2 (by rfl)).1⟩

/-- C5 counterexample: on a download attempt that reaches `dump_data`,
the flag `is_to_update_existing` is passed as `False` — the archive
service is told to skip already-present files, not to re-fetch them as
the claim states. -/
theorem C5_counterexample :
    ((try_download_resolution wOkEnv "1s").2.map (fun a => a.is_to_update_existing)) =
      some false := rfl

/-- C5 amended: every reached `dump_data` call is made for ticker
`SOLUSDT` over `[start, end]` with no excluded tickers and with
`is_to_update_existing=False`, i.e. already-present files are skipped
(not re-fetched); the start date is the service's earliest date or the
2020-08-11 fallback, the end date is today. -/
theorem C5_amended (env : DumperEnv) (frequency : String) (args : DumpArgs)
    (h : (try_download_resolution env frequency).2 = some args) :
    args.is_to_update_existing = false ∧ args.tickers = ["SOLUSDT"] ∧
    args.tickers_to_exclude = [] ∧ args.date_end = env.today ∧
    args.date_start = (match env.minStart frequency with
      | some d => d
      | none => ⟨2020, 8, 11⟩) := by
  unfold try_download_resolution at h
  by_cases hs : env.setupOk frequency
  · rw [if_neg (by simp [hs])] at h
    have hargs : args = dumpArgsFor env frequency := by
      by_cases hd : env.dumpRaises frequency (dumpArgsFor env frequency)
      · rw [if_pos hd] at h
        exact (Option.some.inj h).symm
      · rw [if_neg hd] at h
        exact (Option.some.inj h).symm
    subst hargs
    exact ⟨rfl, rfl, rfl, rfl, rfl⟩
  · rw [if_pos (by simp [hs])] at h
    exact Option.noConfusion h

/-- Witness for C5 at a concrete environment whose download succeeds. -/
theorem C5_amended_witness :
    (dumpArgsFor wOkEnv "1s").is_to_update_existing = false ∧
    (dumpArgsFor wOkEnv "1s").tickers = ["SOLUSDT"] ∧
    (dumpArgsFor wOkEnv "1s").date_start = ⟨2020, 8, 11⟩ := by
  have h := C5_amended wOkEnv "1s" (dumpArgsFor wOkEnv "1s") rfl
  exact ⟨h.1, h.2.1, h.2.2.2.2⟩

/-- C6: if the list of located CSV files is empty, or every located file
fails to load, the merge step returns `None` and writes no output file. -/
theorem C6_empty_returns_none (fs : FS) (lr : Bool)
    (sortImpl : List ProcRow → List ProcRow) (f : String)
    (h : collectCsv fs (selectDir fs lr f) = [] ∨
      ∀ p ∈ collectCsv fs (selectDir fs lr f), ∀ rows, fileAt fs p ≠ some (some rows)) :
    process_downloaded_data fs lr sortImpl f = .ok ⟨none, []⟩ := by
  refine process_none_of_empty ?_
  rcases h with h | h
  · exact Or.inl (by rw [h]; rfl)
  · right
    rw [List.isEmpty_iff]
    unfold loadAll sortPaths
    rw [List.filterMap_eq_nil_iff]
    intro p hp
    have hp' : p ∈ collectCsv fs (selectDir fs lr f) :=
      (List.mem_insertionSort _).mp hp
    cases hf : fileAt fs p with
    | none => rfl
    | some fd =>
      cases fd with
      | none => rfl
      | some rows => exact absurd hf (h p hp' rows)

/-- Witness for C6 on the empty filesystem. -/
theorem C6_empty_returns_none_witness :
    process_downloaded_data [] false stableSortRows "1s" = .ok ⟨none, []⟩ :=
  C6_empty_returns_none [] false stableSortRows "1s" (Or.inl rfl)

/-- The coercion of one cell satisfies the claim-side coercion contract. -/
theorem toNumericCell_spec (c : Cell) : NumSpec c (toNumericCell c) := by
  refine ⟨?_, ?_, ?_⟩
  · rintro q rfl; rfl
  · rintro rfl; rfl
  · rintro s rfl
    constructor
    · intro q hq; simp [toNumericCell, hq]
    · intro hq; simp [toNumericCell, hq]

/-- C7: the merged output is the loaded (sorted, deduplicated) rows with
the numeric coercion applied row by row: no row is dropped by coercion,
the time columns are untouched, and each of the five price cells obeys
the coercion contract — in particular a non-numeric string price cell
becomes the missing marker in that cell only. -/
theorem C7_coercion (fs : FS) (lr : Bool)
    (sortImpl : List ProcRow → List ProcRow) (f : String)
    (po : ProcOut) (out : List ProcRow)
    (hok : process_downloaded_data fs lr sortImpl f = .ok po)
    (hres : po.result = some out) :
    ∃ mid : List ProcRow, out = mid.map toNumericRow ∧ out.length = mid.length ∧
      ∀ r ∈ mid,
        (toNumericRow r).openTime = r.openTime ∧
        (toNumericRow r).closeTime = r.closeTime ∧
        NumSpec r.openP (toNumericRow r).openP ∧
        NumSpec r.highP (toNumericRow r).highP ∧
        NumSpec r.lowP (toNumericRow r).lowP ∧
        NumSpec r.closeP (toNumericRow r).closeP ∧
        NumSpec r.volume (toNumericRow r).volume := by
  obtain ⟨conv, _, hout, _⟩ := process_ok_char hok hres
  refine ⟨dropDuplicatesByOpenTime (sortImpl conv), hout, ?_, ?_⟩
  · rw [hout, List.length_map]
  · intro r _
    exact ⟨rfl, rfl, toNumericCell_spec _, toNumericCell_spec _, toNumericCell_spec _,
      toNumericCell_spec _, toNumericCell_spec _⟩

/-- Witness for C7 on the `wfs` scenario, whose only file contains a
non-numeric `High` cell. -/
theorem C7_coercion_witness :
    ∃ mid : List ProcRow, wout = mid.map toNumericRow ∧ wout.length = mid.length ∧
      ∀ r ∈ mid,
        (toNumericRow r).openTime = r.openTime ∧
        (toNumericRow r).closeTime = r.closeTime ∧
        NumSpec r.openP (toNumericRow r).openP ∧
        NumSpec r.highP (toNumericRow r).highP ∧
        NumSpec r.lowP (toNumericRow r).lowP ∧
        NumSpec r.closeP (toNumericRow r).closeP ∧
        NumSpec r.volume (toNumericRow r).volume :=
  C7_coercion wfs false stableSortRows "1s"
    ⟨some wout, [(outputFile "1s", wout)]⟩ wout (by rfl) rfl

/-- C2: every combined dataset the merger returns has pairwise-unique
open times appearing in strictly increasing key order (missing
timestamps, if any, at the end), for any sort realisation meeting the
pandas `sort_values` contract. -/
theorem C2_sorted_unique (fs : FS) (lr : Bool)
    (sortImpl : List ProcRow → List ProcRow) (hs : SortSpec sortImpl) (f : String)
    (po : ProcOut) (out : List ProcRow)
    (hok : process_downloaded_data fs lr sortImpl f = .ok po)
    (hres : po.result = some out) :
    out.Pairwise (fun a b =>
      keyLeB a.openTime b.openTime = true ∧ a.openTime ≠ b.openTime) := by
  obtain ⟨conv, _, hout, _⟩ := process_ok_char hok hres
  subst hout
  rw [List.pairwise_map]
  have hsorted : (dropDuplicatesByOpenTime (sortImpl conv)).Pairwise rowLe :=
    List.Pairwise.sublist (dedupGo_sublist _ _) (hs conv).2
  have hne := dedupGo_pairwise_ne (sortImpl conv) []
  exact (hsorted.and hne).imp (fun h => ⟨h.1, h.2⟩)

set_option maxRecDepth 400000 in
/-- C1 counterexample.  In the `c1fs` tree the lexicographically first
file `a.csv` contains rows with open time 100 (its first one carries the
`Close` marker 1), yet the merged output's unique open-time-100 row
carries marker 14 — the row of the later file `b.csv`: pandas'
default `sort_values` quicksort reorders equal keys, so deduplication
does not keep the lexicographically-first file's row.  (The file list
and its lexicographic order, and where the markers live, are asserted
alongside.) -/
theorem C1_counterexample :
    c1npOut.map (fun out =>
        (out.filter (fun r => decide (r.openTime = some 100))).map
          (fun r => r.closeP)) = some [Cell.num 14] ∧
    sortPaths (collectCsv c1fs (selectDir c1fs false "1s")) =
      [dailyDir "1s" ++ "/a.csv", dailyDir "1s" ++ "/b.csv"] ∧
    fileAt c1fs (dailyDir "1s" ++ "/a.csv") = some (some c1rowsA) ∧
    fileAt c1fs (dailyDir "1s" ++ "/b.csv") = some (some c1rowsB) ∧
    c1rowsA.any (fun r => decide (r.openTime = Cell.num 100)) = true ∧
    c1rowsA.all (fun r => decide (r.closeP ≠ Cell.num 14)) = true ∧
    c1rowsB.any (fun r =>
      decide (r.openTime = Cell.num 100 ∧ r.closeP = Cell.num 14)) = true := by
  refine ⟨by rfl, by rfl, by rfl, by rfl, by rfl, by decide, by decide⟩

/-- C1 amended: the merged output has exactly one row per distinct open
time — for each key it is the first key-`k` row, in file-concatenation
order, of the lexicographically-first loaded file containing `k` —
*provided* the realisation of `sort_values` is stable on the key.
pandas' default quicksort is not stable (see the counterexample), so the
code only guarantees this under a stable sort kind. -/
theorem C1_amended (sortImpl : List ProcRow → List ProcRow)
    (hstable : StableSort sortImpl)
    (fs : FS) (lr : Bool) (f : String) (po : ProcOut) (out : List ProcRow)
    (chunks : List (List ProcRow))
    (hok : process_downloaded_data fs lr sortImpl f = .ok po)
    (hres : po.result = some out)
    (hchunks : List.Forall₂
      (fun (d : FsPath × List Row) c => d.2.mapM toDatetimeRow = .ok c)
      (loadAll fs (sortPaths (collectCsv fs (selectDir fs lr f)))) chunks) :
    (out.map (fun r => r.openTime)).Nodup ∧
    ∀ k : Option Int,
      out.filter (fun r => decide (r.openTime = k)) =
        (((chunks.find? (fun c => c.any (fun r => decide (r.openTime = k)))).bind
          (fun c => (c.filter (fun r => decide (r.openTime = k))).head?)).toList).map
            toNumericRow := by
  obtain ⟨conv, hconv, hout, _⟩ := process_ok_char hok hres
  have hflat : convResult fs lr f = .ok chunks.flatten := mapM_ok_flatten hchunks
  have hcv : conv = chunks.flatten := by
    rw [hconv] at hflat
    exact Except.ok.inj hflat
  subst hcv
  subst hout
  constructor
  · rw [List.map_map]
    have hpw := dedupGo_pairwise_ne (sortImpl chunks.flatten) []
    exact List.pairwise_map.mpr (hpw.imp (fun h => h))
  · intro k
    rw [List.filter_map]
    have hfe : (dropDuplicatesByOpenTime (sortImpl chunks.flatten)).filter
        ((fun r => decide (r.openTime = k)) ∘ toNumericRow) =
        (dropDuplicatesByOpenTime (sortImpl chunks.flatten)).filter
        (fun r => decide (r.openTime = k)) := rfl
    rw [hfe]
    unfold dropDuplicatesByOpenTime
    rw [dedupGo_filter_not_mem _ [] (List.not_mem_nil k)]
    rw [hstable chunks.flatten k]
    rw [filter_flatten_head]

/-- Witness for C1-amended on the `wfs` scenario with the stable
reference sort. -/
theorem C1_amended_witness :
    (wout.map (fun r => r.openTime)).Nodup ∧
    wout.filter (fun r => decide (r.openTime = some 1597104000000)) =
      ((([wconv].find? (fun c =>
          c.any (fun r => decide (r.openTime = some 1597104000000)))).bind
        (fun c =>
          (c.filter (fun r => decide (r.openTime = some 1597104000000))).head?)).toList).map
            toNumericRow := by
  have h := C1_amended stableSortRows stableSort_stableSortRows wfs false "1s"
    ⟨some wout, [(outputFile "1s", wout)]⟩ wout [wconv] (by rfl) rfl
    (List.Forall₂.cons (by rfl) List.Forall₂.nil)
  exact ⟨h.1, h.2 (some 1597104000000)⟩

/-- Witness for C2 on the `wfs` scenario with the stable reference
sort. -/
theorem C2_sorted_unique_witness :
    wout.Pairwise (fun a b =>
      keyLeB a.openTime b.openTime = true ∧ a.openTime ≠ b.openTime) :=
  C2_sorted_unique wfs false stableSortRows sortSpec_stableSortRows "1s"
    ⟨some wout, [(outputFile "1s", wout)]⟩ wout (by rfl) rfl

/-- C4 counterexample: a successfully downloaded and loaded file whose
`Open time` cell holds the non-numeric string `"corrupted"` makes
`pd.to_datetime` raise inside `process_downloaded_data`; nothing catches
it, so the whole run ends in an uncaught exception instead of a returned
dataset or a printed failure message. -/
theorem C4_counterexample :
    (get_all_solana_data wOkEnv c4fs (fun _ => false) numpySortValues true).result =
      .error "non convertible value with the unit ms" := by rfl

theorem step2_result_error {env : DumperEnv} {fs : FS} {locRaises : String → Bool}
    {sortImpl : List ProcRow → List ProcRow} {pre : List String} {e : String}
    (h : (get_all_step2 env fs locRaises sortImpl pre).result = .error e) :
    convResult fs (locRaises "1m") "1m" = .error e := by
  unfold get_all_step2 at h
  by_cases h1 : (try_download_resolution env "1m").1
  · rw [if_pos h1] at h
    cases hp : process_downloaded_data fs (locRaises "1m") sortImpl "1m" with
    | error e2 =>
      rw [hp] at h
      have he2 : e2 = e := Except.error.inj h
      rw [← he2]
      exact process_error_conv hp
    | ok po =>
      rw [hp] at h
      exact Except.noConfusion h
  · rw [if_neg (by simp [h1])] at h
    exact Except.noConfusion h

theorem step2_ok_of_conv {env : DumperEnv} {fs : FS} {locRaises : String → Bool}
    {sortImpl : List ProcRow → List ProcRow} {pre : List String}
    (h : ∃ c, convResult fs (locRaises "1m") "1m" = .ok c) :
    ∃ v, (get_all_step2 env fs locRaises sortImpl pre).result = .ok v := by
  obtain ⟨c, hc⟩ := h
  unfold get_all_step2
  by_cases h1 : (try_download_resolution env "1m").1
  · rw [if_pos h1]
    obtain ⟨po, hpo⟩ := @process_ok_of_conv fs (locRaises "1m") sortImpl "1m" c hc
    rw [hpo]
    exact ⟨po.result, rfl⟩
  · rw [if_neg (by simp [h1])]
    exact ⟨none, rfl⟩

/-- C4 amended: failures of the archive service, of file location and of
per-file loading are all caught — the only way a run can end in an
uncaught exception is a timestamp-conversion failure (a non-numeric
open/close-time cell) in the processed resolution's loaded rows; when
the time columns of both resolutions' loaded rows convert, the run
always returns normally. -/
theorem C4_amended (env : DumperEnv) (fs : FS) (locRaises : String → Bool)
    (sortImpl : List ProcRow → List ProcRow) (try_seconds : Bool) :
    (∀ e, (get_all_solana_data env fs locRaises sortImpl try_seconds).result =
        .error e →
      convResult fs (locRaises "1s") "1s" = .error e ∨
      convResult fs (locRaises "1m") "1m" = .error e) ∧
    ((∃ c, convResult fs (locRaises "1s") "1s" = .ok c) →
      (∃ c, convResult fs (locRaises "1m") "1m" = .ok c) →
      ∃ v, (get_all_solana_data env fs locRaises sortImpl try_seconds).result =
        .ok v) := by
  constructor
  · intro e he
    unfold get_all_solana_data at he
    by_cases hts : try_seconds = true
    · rw [if_pos hts] at he
      by_cases h1 : (try_download_resolution env "1s").1
      · rw [if_pos h1] at he
        cases hp : process_downloaded_data fs (locRaises "1s") sortImpl "1s" with
        | error e2 =>
          rw [hp] at he
          have he2 : e2 = e := Except.error.inj he
          refine Or.inl ?_
          rw [← he2]
          exact process_error_conv hp
        | ok po =>
          rw [hp] at he
          exact Except.noConfusion he
      · rw [if_neg (by simp [h1])] at he
        exact Or.inr (step2_result_error he)
    · rw [if_neg hts] at he
      exact Or.inr (step2_result_error he)
  · intro h1s h1m
    unfold get_all_solana_data
    by_cases hts : try_seconds = true
    · rw [if_pos hts]
      by_cases h1 : (try_download_resolution env "1s").1
      · rw [if_pos h1]
        obtain ⟨c, hc⟩ := h1s
        obtain ⟨po, hpo⟩ := @process_ok_of_conv fs (locRaises "1s") sortImpl "1s" c hc
        rw [hpo]
        exact ⟨po.result, rfl⟩
      · rw [if_neg (by simp [h1])]
        exact step2_ok_of_conv h1m
    · rw [if_neg hts]
      exact step2_ok_of_conv h1m

/-- Witness for C4-amended on a well-formed environment and tree. -/
theorem C4_amended_witness :
    (get_all_solana_data wOkEnv wfs (fun _ => false) stableSortRows true).result.isOk =
      true := by
  obtain ⟨v, hv⟩ := (C4_amended wOkEnv wfs (fun _ => false) stableSortRows true).2
    ⟨wconv, by rfl⟩ ⟨[], by rfl⟩
  rw [hv]
  rfl

theorem toDatetimeRow_prices {r : Row} {pr : ProcRow}
    (h : toDatetimeRow r = .ok pr) :
    pr.openP = r.openP ∧ pr.highP = r.highP ∧ pr.lowP = r.lowP ∧
    pr.closeP = r.closeP ∧ pr.volume = r.volume := by
  unfold toDatetimeRow at h
  cases h1 : toDatetimeCell r.openTime with
  | error e => rw [h1] at h; exact Except.noConfusion h
  | ok ot =>
    rw [h1] at h
    cases h2 : toDatetimeCell r.closeTime with
    | error e => rw [h2] at h; exact Except.noConfusion h
    | ok ct =>
      rw [h2] at h
      have hpr := Except.ok.inj h
      rw [← hpr]
      exact ⟨rfl, rfl, rfl, rfl, rfl⟩

/-- C8: for a run that locates exactly one CSV file, loads it, and finds
all its open times distinct, the merged output has exactly as many rows
as the file, is (up to the key-sorting permutation) the file's rows with
time cells converted and price cells numerically coerced — prices
preserved modulo coercion — and the epoch-to-calendar conversion maps
the example millisecond value 1597104000000 to 2020-08-11T00:00:00Z,
in agreement with the independent civil-to-days computation. -/
theorem C8_single_file (sortImpl : List ProcRow → List ProcRow)
    (hs : SortSpec sortImpl) (fs : FS) (lr : Bool) (f : String) (p : FsPath)
    (rows : List Row) (mrows : List ProcRow) (po : ProcOut) (out : List ProcRow)
    (hcsv : collectCsv fs (selectDir fs lr f) = [p])
    (hload : fileAt fs p = some (some rows))
    (hconv : rows.mapM toDatetimeRow = .ok mrows)
    (hnodup : (mrows.map (fun r => r.openTime)).Nodup)
    (hok : process_downloaded_data fs lr sortImpl f = .ok po)
    (hres : po.result = some out) :
    out.length = rows.length ∧
    out.Perm (mrows.map toNumericRow) ∧
    List.Forall₂ (fun r pr => toDatetimeRow r = .ok pr) rows mrows ∧
    (∀ r pr, toDatetimeRow r = .ok pr →
      pr.openP = r.openP ∧ pr.highP = r.highP ∧ pr.lowP = r.lowP ∧
      pr.closeP = r.closeP ∧ pr.volume = r.volume) ∧
    (∀ q : ℚ, toDatetimeCell (.num q) = .ok (some ⌊q⌋)) ∧
    calendarOfMs 1597104000000 = ⟨2020, 8, 11, 0, 0, 0, 0⟩ ∧
    daysFromCivil 2020 8 11 * 86400000 = 1597104000000 := by
  obtain ⟨conv, hconvr, hout, _⟩ := process_ok_char hok hres
  have hcombined : convResult fs lr f = rows.mapM toDatetimeRow := by
    unfold convResult
    rw [hcsv]
    have hsp : sortPaths [p] = [p] := rfl
    rw [hsp]
    have hla : loadAll fs [p] = [(p, rows)] := by
      unfold loadAll
      rw [List.filterMap_cons, hload]
      rfl
    rw [hla]
    rw [List.flatMap_cons]
    simp
  have hcm : conv = mrows := by
    rw [hcombined, hconv] at hconvr
    exact (Except.ok.inj hconvr).symm
  rw [hcm] at hout
  subst hout
  have hperm : (sortImpl mrows).Perm mrows := (hs mrows).1
  have hnodup' : ((sortImpl mrows).map (fun r => r.openTime)).Nodup :=
    hnodup.perm (hperm.map (fun r => r.openTime)).symm
  have hded : dropDuplicatesByOpenTime (sortImpl mrows) = sortImpl mrows :=
    dedupGo_eq_self (sortImpl mrows) [] hnodup' (fun r _ h => List.not_mem_nil _ h)
  rw [hded]
  have hlen : mrows.length = rows.length :=
    (List.Forall₂.length_eq ((mapM_ok_iff toDatetimeRow rows mrows).mp hconv)).symm
  refine ⟨?_, ?_, (mapM_ok_iff toDatetimeRow rows mrows).mp hconv,
    fun r pr h => toDatetimeRow_prices h, fun q => rfl, by rfl, by rfl⟩
  · rw [List.length_map, hperm.length_eq, hlen]
  · exact hperm.map toNumericRow

/-- Witness for C8 on the `wfs` single-file scenario. -/
theorem C8_single_file_witness :
    wout.length = wrows.length ∧ wout.Perm (wconv.map toNumericRow) ∧
    calendarOfMs 1597104000000 = ⟨2020, 8, 11, 0, 0, 0, 0⟩ := by
  have h := C8_single_file stableSortRows sortSpec_stableSortRows wfs false "1s"
    (dailyDir "1s" ++ "/w.csv") wrows wconv
    ⟨some wout, [(outputFile "1s", wout)]⟩ wout
    (by rfl) (by rfl) (by rfl) (by decide) (by rfl) rfl
  exact ⟨h.1, h.2.1, h.2.2.2.2.2.1⟩

/-- C9: the directory policy is applied in order with the first match
winning — the daily-klines directory if it exists, else the
monthly-klines directory if it exists, else the first `os.walk` entry
that directly contains a `.csv` file; an exception during the checks
leaves the unmodified download root; and the CSV paths are then
collected recursively under the selected directory. -/
theorem C9_locator (fs : FS) (f : String) :
    (selectDir fs true f = dataDir f) ∧
    (pathExists fs (dailyDir f) = true → selectDir fs false f = dailyDir f) ∧
    (pathExists fs (dailyDir f) = false → pathExists fs (monthlyDir f) = true →
      selectDir fs false f = monthlyDir f) ∧
    (pathExists fs (dailyDir f) = false → pathExists fs (monthlyDir f) = false →
      ∀ pre e post, walkFrom fs (dataDir f) = pre ++ e :: post →
        (∀ x ∈ pre, x.files.any (fun fl => strEnds ".csv" fl.1) = false) →
        e.files.any (fun fl => strEnds ".csv" fl.1) = true →
        selectDir fs false f = e.path) ∧
    (∀ dir p, p ∈ collectCsv fs dir ↔
      ∃ e, e ∈ fs ∧ underDir dir e.path = true ∧
        ∃ fl, fl ∈ e.files ∧ strEnds ".csv" fl.1 = true ∧
          p = e.path ++ "/" ++ fl.1) := by
  refine ⟨?_, ?_, ?_, ?_, ?_⟩
  · unfold selectDir
    rw [if_pos rfl]
  · intro h
    unfold selectDir
    rw [if_neg (by simp), if_pos h]
  · intro h1 h2
    unfold selectDir
    rw [if_neg (by simp), if_neg (by simp [h1]), if_pos h2]
  · intro h1 h2 pre e post hwalk hpre he
    unfold selectDir
    rw [if_neg (by simp), if_neg (by simp [h1]), if_neg (by simp [h2])]
    unfold findCsvDir
    rw [hwalk, find?_first _ pre e post hpre he]
    rfl
  · intro dir p
    exact mem_collectCsv

/-- Witness for C9 on the `wfs` tree, whose daily directory exists. -/
theorem C9_locator_witness :
    selectDir wfs false "1s" = dailyDir "1s" ∧
    (dailyDir "1s" ++ "/w.csv") ∈ collectCsv wfs (selectDir wfs false "1s") := by
  have h := C9_locator wfs "1s"
  refine ⟨h.2.1 (by rfl), ?_⟩
  refine (h.2.2.2.2 (selectDir wfs false "1s") (dailyDir "1s" ++ "/w.csv")).mpr ?_
  exact ⟨⟨dailyDir "1s", [("w.csv", some wrows)]⟩, List.mem_cons_self _ _,
    by rfl, ("w.csv", some wrows), List.mem_cons_self _ _, by rfl, rfl⟩

theorem process_written {fs : FS} {lr : Bool} {s : List ProcRow → List ProcRow}
    {f : String} {po : ProcOut}
    (hok : process_downloaded_data fs lr s f = .ok po) :
    po.written = [] ∨ ∃ final, po.written = [(outputFile f, final)] := by
  rw [process_eq] at hok
  by_cases h1 : (collectCsv fs (selectDir fs lr f)).isEmpty
  · rw [if_pos h1] at hok
    cases Except.ok.inj hok
    exact Or.inl rfl
  · rw [if_neg h1] at hok
    by_cases h2 : (loadAll fs (sortPaths (collectCsv fs (selectDir fs lr f)))).isEmpty
    · rw [if_pos h2] at hok
      cases Except.ok.inj hok
      exact Or.inl rfl
    · rw [if_neg h2] at hok
      cases hc : convResult fs lr f with
      | error e => rw [hc] at hok; exact Except.noConfusion hok
      | ok conv =>
        rw [hc] at hok
        cases Except.ok.inj hok
        exact Or.inr ⟨_, rfl⟩

/-- C10: the two resolutions are isolated — the dumper is configured to
write under `./solana_data_{r}` (its documented contract is to write
only below `path_dir_where_to_dump`), all CSV paths the merge step
reads lie under `./solana_data_{r}`, no path lies under both resolution
directories, the two output files are distinct and lie under neither
directory, and the merge step only ever writes its own resolution's
output file. -/
theorem C10_isolation (fs : FS) (lr : Bool)
    (sortImpl : List ProcRow → List ProcRow) :
    ((dumperCfg "1s").path_dir_where_to_dump = dataDir "1s" ∧
      (dumperCfg "1m").path_dir_where_to_dump = dataDir "1m") ∧
    (∀ f p, p ∈ collectCsv fs (selectDir fs lr f) →
      underDir (dataDir f) p = true) ∧
    (∀ p, ¬(underDir (dataDir "1s") p = true ∧ underDir (dataDir "1m") p = true)) ∧
    (outputFile "1s" ≠ outputFile "1m") ∧
    (underDir (dataDir "1s") (outputFile "1s") = false ∧
      underDir (dataDir "1s") (outputFile "1m") = false ∧
      underDir (dataDir "1m") (outputFile "1s") = false ∧
      underDir (dataDir "1m") (outputFile "1m") = false) ∧
    (∀ f po w, process_downloaded_data fs lr sortImpl f = .ok po →
      w ∈ po.written → w.1 = outputFile f) := by
  refine ⟨⟨rfl, rfl⟩, ?_, ?_, by decide, ⟨by decide, by decide, by decide, by decide⟩, ?_⟩
  · intro f p hp
    exact underDir_trans (selectDir_under fs lr f) (collectCsv_under hp)
  · rintro p ⟨h1, h2⟩
    unfold underDir at h1 h2
    rcases Bool.or_eq_true_iff.mp h1 with hp1 | hp1 <;>
      rcases Bool.or_eq_true_iff.mp h2 with hp2 | hp2
    · have e1 : p = dataDir "1s" := by simpa using hp1
      have e2 : p = dataDir "1m" := by simpa using hp2
      exact absurd (e1.symm.trans e2) (by decide)
    · have e1 : p = dataDir "1s" := by simpa using hp1
      rw [e1] at hp2
      exact absurd hp2 (by decide)
    · have e2 : p = dataDir "1m" := by simpa using hp2
      rw [e2] at hp1
      exact absurd hp1 (by decide)
    · unfold strLeads at hp1 hp2
      rcases leads_comparable hp1 hp2 with hc | hc
      · exact absurd hc (by decide)
      · exact absurd hc (by decide)
  · intro f po w hok hw
    rcases process_written hok with h | ⟨final, h⟩
    · rw [h] at hw
      cases hw
    · rw [h] at hw
      rw [List.mem_singleton.mp hw]

/-- Witness for C10 at the `wfs` scenario and a sample path. -/
theorem C10_isolation_witness :
    underDir (dataDir "1s") (dailyDir "1s" ++ "/w.csv") = true ∧
    ¬(underDir (dataDir "1s") "./x" = true ∧ underDir (dataDir "1m") "./x" = true) := by
  have h := C10_isolation wfs false stableSortRows
  exact ⟨h.2.1 "1s" (dailyDir "1s" ++ "/w.csv") (by decide), h.2.2.1 "./x"⟩
